import Mathlib

/-!
Shallow embedding of three modules of the anomalib repository:
  * `src/anomalib/deploy/inferencers/base_inferencer.py` (`Inferencer`)
  * `src/anomalib/data/base/datamodule.py` (`collate_fn`, `AnomalibDataModule`)
  * `src/anomalib/data/depth/folder_3d.py` (`make_folder3d_dataset`)
Python dictionaries are modelled as association lists, numpy scalars as
rationals, fallible code as `Option`/`Except`, and external collaborators
(abstract methods, `default_collate`, the filesystem) as explicit function
parameters.
-/

namespace Anomalib

/-! ### Metadata dictionaries (`dict[str, Any]` used by the inferencer) -/

/-- A metadata value: either a numeric scalar (thresholds, min, max) or an
image shape `image_arr.shape[:2]`. -/
inductive MVal where
  | q (x : ℚ)
  | shape (hw : Nat × Nat)
  deriving Repr, DecidableEq

/-- A Python `dict[str, Any]` as an association list preserving insertion
order, with unique keys maintained by `mdSet`. -/
def Metadata : Type := List (String × MVal)

instance : DecidableEq Metadata := by
  unfold Metadata
  infer_instance

/-- `k in metadata` membership test. -/
def mdHas (md : Metadata) (k : String) : Bool :=
  (md.lookup k).isSome

/-- `metadata[k]` read, restricted to numeric values; `none` models a
`KeyError` or a `TypeError` from arithmetic on a non-numeric value. -/
def mdGetQ (md : Metadata) (k : String) : Option ℚ :=
  match md.lookup k with
  | some (MVal.q x) => some x
  | _ => none

/-- `metadata[k] = v` dict assignment: overwrite the first binding in place
if the key exists, otherwise append (Python insertion-order semantics). -/
def mdSet (md : Metadata) (k : String) (v : MVal) : Metadata :=
  match md with
  | [] => [(k, v)]
  | (k', v') :: rest =>
    if k' = k then (k', v) :: rest else (k', v') :: mdSet rest k v

/-! ### `Inferencer` (base_inferencer.py) -/

/-- The dictionary returned by `post_process`: the six entries that
`predict` reads out of it.  Entry values are drawn from an abstract type
`V`, matching the `Any`-typed payloads of the Python dict. -/
structure PredDict (V : Type) where
  pred_score : V
  pred_label : V
  anomaly_map : V
  pred_mask : V
  pred_boxes : V
  box_labels : V

/-- The `ImageResult` dataclass that `predict` constructs. -/
structure ImageResult (Img V : Type) where
  image : Img
  pred_score : V
  pred_label : V
  anomaly_map : V
  pred_mask : V
  pred_boxes : V
  box_labels : V

/-- An `Inferencer` instance: its three abstract stage methods (implemented
by Torch/OpenVINO subclasses) and the optional `self.metadata` attribute
(`none` models `hasattr(self, "metadata")` being false). -/
structure Inferencer (Img Tns V : Type) where
  pre_process : Img → Tns
  fwd : Tns → Tns
  post_process : Tns → Metadata → PredDict V
  metadata : Option Metadata

/-- The `image` argument of `predict`: a path (`str | Path`) or an already
loaded numpy array. -/
inductive ImgInput (Img : Type) where
  | path (s : String)
  | arr (a : Img)

/-- The array `predict` works on: `read_image(image)` for a path, the array
itself otherwise. -/
def imgArrOf {Img : Type} (read_image : String → Img) : ImgInput Img → Img
  | ImgInput.path s => read_image s
  | ImgInput.arr a => a

/-- The metadata `predict` starts from: the argument if given, else
`self.metadata` if the attribute exists, else `{}`. -/
def mdEff {Img Tns V : Type} (inf : Inferencer Img Tns V) :
    Option Metadata → Metadata
  | some m => m
  | none => inf.metadata.getD []

/-- `Inferencer.predict`, following the source line by line: resolve the
metadata, load the array, store `image_shape`, then pre-process, forward,
post-process, and build the `ImageResult`.  `shape2` models
`image_arr.shape[:2]`. -/
def predict {Img Tns V : Type} (shape2 : Img → Nat × Nat)
    (read_image : String → Img) (inf : Inferencer Img Tns V)
    (image : ImgInput Img) (metadata : Option Metadata) :
    ImageResult Img V :=
  let md0 : Metadata := mdEff inf metadata
  let image_arr : Img := imgArrOf read_image image
  let md : Metadata := mdSet md0 "image_shape" (MVal.shape (shape2 image_arr))
  let processed := inf.pre_process image_arr
  let predictions := inf.fwd processed
  let output := inf.post_process predictions md
  { image := image_arr
    pred_score := output.pred_score
    pred_label := output.pred_label
    anomaly_map := output.anomaly_map
    pred_mask := output.pred_mask
    pred_boxes := output.pred_boxes
    box_labels := output.box_labels }

/-- `Inferencer._normalize`.  `nmm` is the external
`anomalib.utils.normalization.min_max.normalize` function, abstracted as
`(value, threshold, vmin, vmax) ↦ normalized value` and mapped elementwise
over anomaly maps (modelled as lists of rationals).  The outer `Option`
models a `KeyError`/`TypeError` when a required threshold entry is missing
or non-numeric; `float(pred_scores)` is the identity on rationals. -/
def inferNormalize (nmm : ℚ → ℚ → ℚ → ℚ → ℚ) (pred_scores : ℚ)
    (md : Metadata) (anomaly_maps : Option (List ℚ)) :
    Option (Option (List ℚ) × ℚ) :=
  if mdHas md "min" && mdHas md "max" then
    match mdGetQ md "min", mdGetQ md "max" with
    | some vmin, some vmax =>
      match anomaly_maps with
      | some maps =>
        match mdGetQ md "pixel_threshold" with
        | some pthr =>
          let maps' := maps.map (fun x => nmm x pthr vmin vmax)
          match mdGetQ md "image_threshold" with
          | some ithr => some (some maps', nmm pred_scores ithr vmin vmax)
          | none => none
        | none => none
      | none =>
        match mdGetQ md "image_threshold" with
        | some ithr => some (none, nmm pred_scores ithr vmin vmax)
        | none => none
    | _, _ => none
  else
    some (anomaly_maps, pred_scores)

/-- If a key reads as a numeric value it is present in the dict. -/
theorem mdHas_of_mdGetQ {md : Metadata} {k : String} {x : ℚ}
    (h : mdGetQ md k = some x) : mdHas md k = true := by
  unfold mdGetQ at h
  unfold mdHas
  cases hl : md.lookup k with
  | none => rw [hl] at h; cases h
  | some v => simp [hl]

/-- C1: `Inferencer.predict` computes its output by the fixed chain
`output = post_process(forward(pre_process(image_arr)), metadata)` —
pre-processing first, then the forward pass on its result, then
post-processing on the forward result — and returns an `ImageResult` built
from the original image array and the `pred_score`, `pred_label`,
`anomaly_map`, `pred_mask`, `pred_boxes` and `box_labels` entries of that
`post_process` output (the metadata passed to `post_process` being the
effective metadata with `image_shape` stored into it). -/
theorem predict_fixed_chain {Img Tns V : Type} (shape2 : Img → Nat × Nat)
    (read_image : String → Img) (inf : Inferencer Img Tns V)
    (image : ImgInput Img) (metadata : Option Metadata) :
    predict shape2 read_image inf image metadata =
      { image := imgArrOf read_image image
        pred_score :=
          (inf.post_process
            (inf.fwd (inf.pre_process (imgArrOf read_image image)))
            (mdSet (mdEff inf metadata) "image_shape"
              (MVal.shape (shape2 (imgArrOf read_image image))))).pred_score
        pred_label :=
          (inf.post_process
            (inf.fwd (inf.pre_process (imgArrOf read_image image)))
            (mdSet (mdEff inf metadata) "image_shape"
              (MVal.shape (shape2 (imgArrOf read_image image))))).pred_label
        anomaly_map :=
          (inf.post_process
            (inf.fwd (inf.pre_process (imgArrOf read_image image)))
            (mdSet (mdEff inf metadata) "image_shape"
              (MVal.shape (shape2 (imgArrOf read_image image))))).anomaly_map
        pred_mask :=
          (inf.post_process
            (inf.fwd (inf.pre_process (imgArrOf read_image image)))
            (mdSet (mdEff inf metadata) "image_shape"
              (MVal.shape (shape2 (imgArrOf read_image image))))).pred_mask
        pred_boxes :=
          (inf.post_process
            (inf.fwd (inf.pre_process (imgArrOf read_image image)))
            (mdSet (mdEff inf metadata) "image_shape"
              (MVal.shape (shape2 (imgArrOf read_image image))))).pred_boxes
        box_labels :=
          (inf.post_process
            (inf.fwd (inf.pre_process (imgArrOf read_image image)))
            (mdSet (mdEff inf metadata) "image_shape"
              (MVal.shape (shape2 (imgArrOf read_image image))))).box_labels } :=
  rfl

/-- C2: `Inferencer._normalize` applies min-max normalization iff both
`min` and `max` are in the metadata: in that case `pred_scores` is rescaled
with `image_threshold` and a non-`None` `anomaly_maps` is rescaled
(elementwise) with `pixel_threshold`; when either key is absent both are
returned unchanged, the score being `float(pred_scores)` in every case. -/
theorem normalize_minmax_conditional (nmm : ℚ → ℚ → ℚ → ℚ → ℚ)
    (score : ℚ) (md : Metadata) :
    ((mdHas md "min" && mdHas md "max") = false →
      ∀ maps : Option (List ℚ),
        inferNormalize nmm score md maps = some (maps, score)) ∧
    (∀ vmin vmax pthr ithr : ℚ,
      mdGetQ md "min" = some vmin → mdGetQ md "max" = some vmax →
      mdGetQ md "pixel_threshold" = some pthr →
      mdGetQ md "image_threshold" = some ithr →
      (∀ maps : List ℚ,
        inferNormalize nmm score md (some maps) =
          some (some (maps.map (fun x => nmm x pthr vmin vmax)),
            nmm score ithr vmin vmax)) ∧
      inferNormalize nmm score md none =
        some (none, nmm score ithr vmin vmax)) := by
  constructor
  · intro h maps
    simp [inferNormalize, h]
  · intro vmin vmax pthr ithr h1 h2 hp hi
    have hb : (mdHas md "min" && mdHas md "max") = true := by
      rw [mdHas_of_mdGetQ h1, mdHas_of_mdGetQ h2]
      rfl
    constructor
    · intro maps
      simp [inferNormalize, hb, h1, h2, hp, hi]
    · simp [inferNormalize, hb, h1, h2, hi]

/-- Witness for C2 at a concrete metadata dict, score and anomaly map. -/
theorem normalize_minmax_conditional_witness :
    inferNormalize (fun x t a b => (x - t) / (b - a) + 1/2) 1
        [("min", MVal.q 0), ("max", MVal.q 2),
         ("image_threshold", MVal.q 1), ("pixel_threshold", MVal.q (1/2))]
        (some [0, 2]) =
      some (some [-1/4 + 1/2, (3 : ℚ)/4 + 1/2], 0 + 1/2) ∧
    inferNormalize (fun x t a b => (x - t) / (b - a) + 1/2) 1
        [("nothing", MVal.q 0)] (some [3]) = some (some [3], 1) := by
  constructor
  · have h := (normalize_minmax_conditional
      (fun x t a b => (x - t) / (b - a) + 1/2) 1
      [("min", MVal.q 0), ("max", MVal.q 2),
       ("image_threshold", MVal.q 1), ("pixel_threshold", MVal.q (1/2))]).2
      0 2 (1/2) 1 rfl rfl rfl rfl
    have h2 := h.1 [0, 2]
    rw [h2]
    norm_num
  · have h := (normalize_minmax_conditional
      (fun x t a b => (x - t) / (b - a) + 1/2) 1
      [("nothing", MVal.q 0)]).1 rfl (some [3])
    exact h

/-! ### `AnomalibDataModule` (datamodule.py)

Datasets and the split helpers (`split_by_label`, `random_split`,
`SyntheticAnomalyDataset.from_dataset`, dataset `setup`/`is_setup`) live in
`anomalib.data.utils` / `anomalib.data.base.dataset`, outside the three
embedded files; the datamodule logic is parameterised over them
(`SplitOps`), and a concrete instance modelled from the spec is provided
for evaluation. -/

/-- One row of a dataset's sample table. `label_index` is the nullable
`Int64` column (0 = normal, 1 = abnormal, `none` = NA). -/
structure Sample where
  image_path : String
  label_index : Option Nat
  deriving Repr, DecidableEq

/-- An `AnomalibDataset` as seen through its narrow interface: a sample
table plus the `is_setup` flag (whether its samples have been
materialised by `setup()`). -/
structure ADataset where
  samples : List Sample
  is_setup : Bool
  deriving Repr, DecidableEq

/-- The external dataset operations used by `AnomalibDataModule`:
`split_by_label`, `random_split(subset, ratio, label_aware, seed)`,
`SyntheticAnomalyDataset.from_dataset`, dataset concatenation (`+=`), and
`AnomalibDataset.setup()`. -/
structure SplitOps where
  has_normal : ADataset → Bool
  split_by_label : ADataset → ADataset × ADataset
  random_split : ADataset → ℚ → Bool → Option Nat → ADataset × ADataset
  synthetic : ADataset → ADataset
  append : ADataset → ADataset → ADataset
  ds_setup : ADataset → ADataset

/-- The datamodule configuration fields consumed by subset splitting. The
split modes are the `str`-Enum values (`TestSplitMode` / `ValSplitMode`),
kept as raw strings so that unsupported values are representable. -/
structure DMConfig where
  test_split_mode : String
  test_split_fraction : Option ℚ
  val_split_mode : String
  val_split_fraction : ℚ
  seed : Option Nat
  deriving Repr, DecidableEq

/-- The mutable dataset attributes of a datamodule; `none` models an
attribute that has not been assigned. -/
structure DMState where
  train_data : Option ADataset
  val_data : Option ADataset
  test_data : Option ADataset
  deriving Repr, DecidableEq

/-- The exceptions the datamodule methods can raise. -/
inductive DMErr where
  | valueError
  | nameError
  | attributeError
  | assertionError
  deriving Repr, DecidableEq

/-- `AnomalibDataModule._create_test_split`, following the source: first
the `if has_normal / elif mode != NONE` block (producing the local
`normal_test_data`, `none` when it stays unbound), then the
`if FROM_DIR / elif SYNTHETIC / elif != NONE raise ValueError` dispatch. -/
def create_test_split (ops : SplitOps) (cfg : DMConfig) (st : DMState) :
    Except DMErr DMState :=
  match st.test_data with
  | none => Except.error DMErr.attributeError
  | some td =>
    let step : Except DMErr (Option ADataset × DMState) :=
      if ops.has_normal td then
        Except.ok (some (ops.split_by_label td).1,
          { st with test_data := some (ops.split_by_label td).2 })
      else if cfg.test_split_mode ≠ "none" then
        match cfg.test_split_fraction with
        | some r =>
          match st.train_data with
          | some trd =>
            Except.ok (some (ops.random_split trd r false cfg.seed).2,
              { st with train_data := some (ops.random_split trd r false cfg.seed).1 })
          | none => Except.error DMErr.attributeError
        | none => Except.ok (none, st)
      else Except.ok (none, st)
    match step with
    | Except.error e => Except.error e
    | Except.ok (ntd?, st1) =>
      if cfg.test_split_mode = "from_dir" then
        match ntd?, st1.test_data with
        | some ntd, some td1 =>
          Except.ok { st1 with test_data := some (ops.append td1 ntd) }
        | none, _ => Except.error DMErr.nameError
        | some _, none => Except.error DMErr.attributeError
      else if cfg.test_split_mode = "synthetic" then
        match ntd? with
        | some ntd => Except.ok { st1 with test_data := some (ops.synthetic ntd) }
        | none => Except.error DMErr.nameError
      else if cfg.test_split_mode ≠ "none" then
        Except.error DMErr.valueError
      else Except.ok st1

/-- `AnomalibDataModule._create_val_split`: the
`FROM_TEST / SAME_AS_TEST / SYNTHETIC / elif != NONE raise ValueError`
dispatch. -/
def create_val_split (ops : SplitOps) (cfg : DMConfig) (st : DMState) :
    Except DMErr DMState :=
  if cfg.val_split_mode = "from_test" then
    match st.test_data with
    | some td =>
      Except.ok { st with
        test_data := some (ops.random_split td cfg.val_split_fraction true cfg.seed).1,
        val_data := some (ops.random_split td cfg.val_split_fraction true cfg.seed).2 }
    | none => Except.error DMErr.attributeError
  else if cfg.val_split_mode = "same_as_test" then
    match st.test_data with
    | some td => Except.ok { st with val_data := some td }
    | none => Except.error DMErr.attributeError
  else if cfg.val_split_mode = "synthetic" then
    match st.train_data with
    | some trd =>
      Except.ok { st with
        train_data := some (ops.random_split trd cfg.val_split_fraction false cfg.seed).1,
        val_data := some (ops.synthetic (ops.random_split trd cfg.val_split_fraction false cfg.seed).2) }
    | none => Except.error DMErr.attributeError
  else if cfg.val_split_mode ≠ "none" then
    Except.error DMErr.valueError
  else Except.ok st

/-- `AnomalibDataModule._setup`: assert `train_data`/`test_data` are
present, call their `setup()`, then `_create_test_split` and
`_create_val_split`. -/
def dm_subset_setup (ops : SplitOps) (cfg : DMConfig) (st : DMState) :
    Except DMErr DMState :=
  match st.train_data, st.test_data with
  | some trd, some td =>
    let st1 : DMState :=
      { st with train_data := some (ops.ds_setup trd),
                test_data := some (ops.ds_setup td) }
    match create_test_split ops cfg st1 with
    | Except.error e => Except.error e
    | Except.ok st2 => create_val_split ops cfg st2
  | _, _ => Except.error DMErr.assertionError

/-- `AnomalibDataModule.is_setup`: true when at least one of the three
dataset attributes exists and is itself set up. -/
def dm_is_setup (st : DMState) : Bool :=
  (match st.train_data with | some d => d.is_setup | none => false) ||
  (match st.val_data with | some d => d.is_setup | none => false) ||
  (match st.test_data with | some d => d.is_setup | none => false)

/-- `AnomalibDataModule.setup`: run `_setup` only when not yet set up,
then `assert self.is_setup`.  The boolean records whether `_setup` was
invoked during this call. -/
def dm_setup (ops : SplitOps) (cfg : DMConfig) (st : DMState) :
    Except DMErr (DMState × Bool) :=
  if dm_is_setup st then
    Except.ok (st, false)
  else
    match dm_subset_setup ops cfg st with
    | Except.error e => Except.error e
    | Except.ok st' =>
      if dm_is_setup st' then Except.ok (st', true)
      else Except.error DMErr.assertionError

/-! Concrete dataset operations, modelled from the spec for the external
`anomalib.data.utils` helpers (the spec calls the splitting policy
deterministic and rule-based; these are its deterministic realisations). -/

/-- Modelled from the spec: `AnomalibDataset.has_normal` — the sample
table contains a row with normal (0) label index. -/
def ds_has_normal (ds : ADataset) : Bool :=
  ds.samples.any (fun s => s.label_index = some 0)

/-- Modelled from the spec: `split_by_label` splits a dataset into its
normal (label 0) and anomalous (label 1) subsets; the subsets are
materialised copies, hence set up. -/
def ds_split_by_label (ds : ADataset) : ADataset × ADataset :=
  ({ samples := ds.samples.filter (fun s => s.label_index = some 0), is_setup := true },
   { samples := ds.samples.filter (fun s => s.label_index = some 1), is_setup := true })

/-- Modelled from the spec: `random_split(subset, ratio, label_aware,
seed)` deterministically holds out a `ratio` fraction of the rows as the
second subset. -/
def ds_random_split (ds : ADataset) (ratio_q : ℚ) (_label_aware : Bool)
    (_seed : Option Nat) : ADataset × ADataset :=
  let n := ds.samples.length
  let k := (ratio_q * n).floor.toNat
  ({ samples := ds.samples.take (n - k), is_setup := true },
   { samples := ds.samples.drop (n - k), is_setup := true })

/-- Modelled from the spec: `SyntheticAnomalyDataset.from_dataset` turns
normal samples into synthetic anomalous ones. -/
def ds_synthetic (ds : ADataset) : ADataset :=
  { samples := ds.samples.map (fun s => { s with label_index := some 1 }),
    is_setup := true }

/-- Modelled from the spec: dataset concatenation (`+=`). -/
def ds_append (a b : ADataset) : ADataset :=
  { samples := a.samples ++ b.samples, is_setup := true }

/-- Modelled from the spec: `AnomalibDataset.setup()` materialises the
sample table. -/
def ds_do_setup (ds : ADataset) : ADataset :=
  { ds with is_setup := true }

/-- The concrete `SplitOps` instance built from the modelled helpers. -/
def folderOps : SplitOps :=
  { has_normal := ds_has_normal
    split_by_label := ds_split_by_label
    random_split := ds_random_split
    synthetic := ds_synthetic
    append := ds_append
    ds_setup := ds_do_setup }

/-- C3: with the dataset attributes present, `_create_test_split` raises
`ValueError` exactly when `test_split_mode` is not one of
`none`/`from_dir`/`synthetic`, and `_create_val_split` raises `ValueError`
exactly when `val_split_mode` is not one of
`from_test`/`same_as_test`/`synthetic`/`none`; in particular neither
method raises that `ValueError` for a supported enum value. -/
theorem split_mode_valueerror_iff (ops : SplitOps) (cfg : DMConfig)
    (st : DMState) (td trd : ADataset)
    (hte : st.test_data = some td) (htr : st.train_data = some trd) :
    (create_test_split ops cfg st = Except.error DMErr.valueError ↔
      cfg.test_split_mode ∉ (["none", "from_dir", "synthetic"] : List String)) ∧
    (create_val_split ops cfg st = Except.error DMErr.valueError ↔
      cfg.val_split_mode ∉
        (["from_test", "same_as_test", "synthetic", "none"] : List String)) := by
  constructor
  · by_cases h1 : cfg.test_split_mode = "none"
    · cases hn : ops.has_normal td <;>
        simp [create_test_split, hte, htr, h1, hn]
    · by_cases h2 : cfg.test_split_mode = "from_dir"
      · cases hn : ops.has_normal td <;>
          cases hf : cfg.test_split_fraction <;>
            simp [create_test_split, hte, htr, h1, h2, hn, hf]
      · by_cases h3 : cfg.test_split_mode = "synthetic"
        · cases hn : ops.has_normal td <;>
            cases hf : cfg.test_split_fraction <;>
              simp [create_test_split, hte, htr, h1, h2, h3, hn, hf]
        · cases hn : ops.has_normal td <;>
            cases hf : cfg.test_split_fraction <;>
              simp [create_test_split, hte, htr, h1, h2, h3, hn, hf]
  · by_cases g1 : cfg.val_split_mode = "from_test"
    · simp [create_val_split, hte, htr, g1]
    · by_cases g2 : cfg.val_split_mode = "same_as_test"
      · simp [create_val_split, hte, htr, g1, g2]
      · by_cases g3 : cfg.val_split_mode = "synthetic"
        · simp [create_val_split, hte, htr, g1, g2, g3]
        · by_cases g4 : cfg.val_split_mode = "none"
          · simp [create_val_split, hte, htr, g1, g2, g3, g4]
          · simp [create_val_split, hte, htr, g1, g2, g3, g4]

/-- Witness for C3: an unsupported mode on both methods raises
`ValueError` at a concrete state. -/
theorem split_mode_valueerror_iff_witness :
    create_test_split folderOps
        ⟨"bogus", none, "bogus", 0, none⟩
        ⟨some ⟨[⟨"t.png", some 0⟩], false⟩, none,
         some ⟨[⟨"a.png", some 1⟩], false⟩⟩ =
      Except.error DMErr.valueError ∧
    create_val_split folderOps
        ⟨"bogus", none, "bogus", 0, none⟩
        ⟨some ⟨[⟨"t.png", some 0⟩], false⟩, none,
         some ⟨[⟨"a.png", some 1⟩], false⟩⟩ =
      Except.error DMErr.valueError := by
  have h := split_mode_valueerror_iff folderOps
    ⟨"bogus", none, "bogus", 0, none⟩
    ⟨some ⟨[⟨"t.png", some 0⟩], false⟩, none,
     some ⟨[⟨"a.png", some 1⟩], false⟩⟩
    ⟨[⟨"a.png", some 1⟩], false⟩ ⟨[⟨"t.png", some 0⟩], false⟩ rfl rfl
  exact ⟨h.1.mpr (by decide), h.2.mpr (by decide)⟩

/-- C4: the subset-splitting pipeline of `_setup` (dataset `setup()`,
`_create_test_split`, `_create_val_split`) is deterministic: two runs from
equal train/val/test data and equal configuration (split modes, split
fractions and seed) produce equal results. -/
theorem subset_split_deterministic (ops : SplitOps) (cfg cfg' : DMConfig)
    (st st' : DMState) (hc : cfg = cfg') (hs : st = st') :
    dm_subset_setup ops cfg st = dm_subset_setup ops cfg' st' := by
  rw [hc, hs]

/-- Witness for C4 at a concrete configuration and state. -/
theorem subset_split_deterministic_witness :
    dm_subset_setup folderOps ⟨"none", none, "none", 0, some 42⟩
        ⟨some ⟨[⟨"n.png", some 0⟩], false⟩, none,
         some ⟨[⟨"a.png", some 1⟩], false⟩⟩ =
      dm_subset_setup folderOps ⟨"none", none, "none", 0, some 42⟩
        ⟨some ⟨[⟨"n.png", some 0⟩], false⟩, none,
         some ⟨[⟨"a.png", some 1⟩], false⟩⟩ := by
  exact subset_split_deterministic folderOps
    ⟨"none", none, "none", 0, some 42⟩ ⟨"none", none, "none", 0, some 42⟩
    ⟨some ⟨[⟨"n.png", some 0⟩], false⟩, none,
     some ⟨[⟨"a.png", some 1⟩], false⟩⟩
    ⟨some ⟨[⟨"n.png", some 0⟩], false⟩, none,
     some ⟨[⟨"a.png", some 1⟩], false⟩⟩ (by decide) rfl

/-- C9: whenever `test_data` contains a normal sample,
`_create_test_split` first removes all normal samples from it via
`split_by_label` regardless of the configured mode: under `none` the
normal test samples are discarded entirely and only anomalous (label 1)
samples remain, under `from_dir` the anomalous part is kept and the normal
part re-appended, under `synthetic` `test_data` is rebuilt from the normal
part alone. -/
theorem test_split_removes_normals (cfg : DMConfig) (st : DMState)
    (td : ADataset) (hte : st.test_data = some td)
    (hn : ds_has_normal td = true) :
    (cfg.test_split_mode = "none" →
      create_test_split folderOps cfg st =
        Except.ok { st with test_data := some (ds_split_by_label td).2 } ∧
      ∀ s ∈ (ds_split_by_label td).2.samples, s.label_index = some 1) ∧
    (cfg.test_split_mode = "from_dir" →
      create_test_split folderOps cfg st =
        Except.ok { st with test_data := some (ds_append (ds_split_by_label td).2 (ds_split_by_label td).1) }) ∧
    (cfg.test_split_mode = "synthetic" →
      create_test_split folderOps cfg st =
        Except.ok { st with test_data := some (ds_synthetic (ds_split_by_label td).1) }) := by
  have hfn : folderOps.has_normal td = true := hn
  refine ⟨fun h1 => ⟨?_, ?_⟩, fun h2 => ?_, fun h3 => ?_⟩
  · simp [create_test_split, folderOps, hte, hn, h1]
  · intro s hs
    exact (by simpa [ds_split_by_label] using hs :
      s ∈ td.samples ∧ s.label_index = some 1).2
  · simp [create_test_split, folderOps, hte, hn, h2]
  · simp [create_test_split, folderOps, hte, hn, h3]

/-- Witness for C9: under `TestSplitMode.NONE`, a test set with one normal
and one anomalous sample keeps only the anomalous one. -/
theorem test_split_removes_normals_witness :
    create_test_split folderOps ⟨"none", none, "none", 0, none⟩
        ⟨none, none,
         some ⟨[⟨"good.png", some 0⟩, ⟨"bad.png", some 1⟩], true⟩⟩ =
      Except.ok ⟨none, none, some ⟨[⟨"bad.png", some 1⟩], true⟩⟩ := by
  have h := (test_split_removes_normals ⟨"none", none, "none", 0, none⟩
    ⟨none, none, some ⟨[⟨"good.png", some 0⟩, ⟨"bad.png", some 1⟩], true⟩⟩
    ⟨[⟨"good.png", some 0⟩, ⟨"bad.png", some 1⟩], true⟩ rfl
    (by decide)).1 rfl
  rw [h.1]
  rfl

/-- C10: `AnomalibDataModule.setup` is idempotent: after a successful call
`is_setup` holds, and a second call does not invoke `_setup` again and
leaves the three datasets unchanged. -/
theorem dm_setup_idempotent (ops : SplitOps) (cfg : DMConfig)
    (st st' : DMState) (b : Bool)
    (h : dm_setup ops cfg st = Except.ok (st', b)) :
    dm_is_setup st' = true ∧ dm_setup ops cfg st' = Except.ok (st', false) := by
  by_cases h0 : dm_is_setup st = true
  · have h' : st = st' ∧ false = b := by simpa [dm_setup, h0] using h
    obtain ⟨rfl, rfl⟩ := h'
    exact ⟨h0, by simp [dm_setup, h0]⟩
  · cases hsub : dm_subset_setup ops cfg st with
    | error e => simp [dm_setup, h0, hsub] at h
    | ok st2 =>
      by_cases h2 : dm_is_setup st2 = true
      · have h' : st2 = st' ∧ true = b := by
          simpa [dm_setup, h0, hsub, h2] using h
        obtain ⟨rfl, rfl⟩ := h'
        exact ⟨h2, by simp [dm_setup, h2]⟩
      · simp [dm_setup, h0, hsub, h2] at h

/-- Witness for C10: a concrete successful `setup` run whose result state
satisfies `is_setup` and is a fixed point of a second `setup` call. -/
theorem dm_setup_idempotent_witness :
    dm_is_setup ⟨some ⟨[⟨"n.png", some 0⟩], true⟩, none,
      some ⟨[⟨"a.png", some 1⟩], true⟩⟩ = true ∧
    dm_setup folderOps ⟨"none", none, "none", 0, none⟩
        ⟨some ⟨[⟨"n.png", some 0⟩], true⟩, none,
         some ⟨[⟨"a.png", some 1⟩], true⟩⟩ =
      Except.ok (⟨some ⟨[⟨"n.png", some 0⟩], true⟩, none,
        some ⟨[⟨"a.png", some 1⟩], true⟩⟩, false) := by
  exact dm_setup_idempotent folderOps ⟨"none", none, "none", 0, none⟩
    ⟨some ⟨[⟨"n.png", some 0⟩], false⟩, none,
     some ⟨[⟨"a.png", some 1⟩], false⟩⟩
    ⟨some ⟨[⟨"n.png", some 0⟩], true⟩, none,
     some ⟨[⟨"a.png", some 1⟩], true⟩⟩ true rfl

/-! ### `make_folder3d_dataset` (folder_3d.py)

The filesystem is abstracted as predicates (`FileSys`); the file listing
`_prepare_files_labels(path, dir_type, extensions)` returns, for each
provided directory, its files each labelled with the directory's
`DirType` — the model therefore takes the per-directory file lists as
input (`some` files exactly when the corresponding directory argument was
provided).  The pandas frame is a list of rows; positional `.loc`
assignment from a `.to_numpy()` column is `assignPos`, which raises
`ValueError` on a length mismatch like pandas does. -/

/-- The `DirType` labels of folder_3d. -/
inductive DirType where
  | normal
  | abnormal
  | normal_test
  | normal_depth
  | abnormal_depth
  | normal_test_depth
  | mask
  deriving Repr, DecidableEq

/-- The `Split` str-Enum (`full`/`train`/`test`). -/
inductive Split where
  | full
  | train
  | test
  deriving Repr, DecidableEq

/-- One row of the samples DataFrame.  `label_index` is the nullable
`Int64` column; `depth_path`/`mask_path` are `none` while NA (`mask_path`
becomes `some ""` after `fillna("")`). -/
structure Row where
  image_path : String
  label : DirType
  label_index : Option Nat
  depth_path : Option String
  mask_path : Option String
  split : Option Split
  deriving Repr, DecidableEq

/-- The filesystem, as the two predicates the function consults. -/
structure FileSys where
  is_dir : String → Bool
  fileExists : String → Bool

/-- The inputs of `make_folder3d_dataset`: the resolved `normal_dir` path
and, per optional directory argument, `some` list of its files (in the
order `_prepare_files_labels` yields them) exactly when that directory
was provided. -/
structure Folder3DInput where
  normal_dir : String
  normal_files : List String
  abnormal_files : Option (List String)
  normal_test_files : Option (List String)
  mask_files : Option (List String)
  normal_depth_files : Option (List String)
  abnormal_depth_files : Option (List String)
  normal_test_depth_files : Option (List String)

/-- The exceptions `make_folder3d_dataset` can raise: its `assert`
statements, and pandas' `ValueError` on a length-mismatched positional
assignment. -/
inductive MkErr where
  | assertionError
  | valueError
  deriving Repr, DecidableEq

/-- Decidable equality of `Except` results, for concrete evaluation. -/
instance instDecEqExcept {E A : Type} [DecidableEq E] [DecidableEq A] :
    DecidableEq (Except E A) := fun x y =>
  match x, y with
  | Except.error a, Except.error b =>
    if h : a = b then isTrue (by rw [h])
    else isFalse (fun hc => h (by injection hc))
  | Except.ok a, Except.ok b =>
    if h : a = b then isTrue (by rw [h])
    else isFalse (fun hc => h (by injection hc))
  | Except.error _, Except.ok _ => isFalse (fun hc => by cases hc)
  | Except.ok _, Except.error _ => isFalse (fun hc => by cases hc)

/-- The `(filename, label)` pairs accumulated over the `dirs` dict, in its
insertion order (normal, abnormal, normal_test, normal_depth,
abnormal_depth, normal_test_depth, mask). -/
def dirFiles (inp : Folder3DInput) : List (String × DirType) :=
  inp.normal_files.map (fun p => (p, DirType.normal))
    ++ (inp.abnormal_files.getD []).map (fun p => (p, DirType.abnormal))
    ++ (inp.normal_test_files.getD []).map (fun p => (p, DirType.normal_test))
    ++ (inp.normal_depth_files.getD []).map (fun p => (p, DirType.normal_depth))
    ++ (inp.abnormal_depth_files.getD []).map (fun p => (p, DirType.abnormal_depth))
    ++ (inp.normal_test_depth_files.getD []).map (fun p => (p, DirType.normal_test_depth))
    ++ (inp.mask_files.getD []).map (fun p => (p, DirType.mask))

/-- Lexicographic (codepoint) strict order on character lists — the string
order `sort_values` sorts by. -/
def charsLt : List Char → List Char → Bool
  | [], [] => false
  | [], _ :: _ => true
  | _ :: _, [] => false
  | a :: as, b :: bs =>
    if a.toNat < b.toNat then true
    else if b.toNat < a.toNat then false
    else charsLt as bs

/-- Lexicographic strict order on paths. -/
def pathLt (a b : String) : Bool :=
  charsLt a.toList b.toList

/-- Stable insertion of a pair into a list sorted by path. -/
def insertRow (r : String × DirType) : List (String × DirType) → List (String × DirType)
  | [] => [r]
  | x :: xs => if pathLt r.1 x.1 then r :: x :: xs else x :: insertRow r xs

/-- `samples.sort_values(by="image_path", ignore_index=True)`. -/
def sortRows : List (String × DirType) → List (String × DirType)
  | [] => []
  | x :: xs => insertRow x (sortRows xs)

/-- The `label_index` column: 0 for normal/normal_test, 1 for abnormal,
NA otherwise. -/
def labelIndexOf : DirType → Option Nat
  | DirType.normal => some 0
  | DirType.normal_test => some 0
  | DirType.abnormal => some 1
  | _ => none

/-- A freshly assembled row, before depth/mask/split columns are filled. -/
def initRow (p : String × DirType) : Row :=
  { image_path := p.1
    label := p.2
    label_index := labelIndexOf p.2
    depth_path := none
    mask_path := none
    split := none }

/-- Image paths of the rows carrying a given label, in row order — the
`.to_numpy()` source column of a positional `.loc` assignment. -/
def pathsOf (lab : DirType) (rows : List Row) : List String :=
  (rows.filter (fun r => r.label = lab)).map (fun r => r.image_path)

/-- Positional `.loc[label == lab, col] = vals` assignment: walk the rows,
consuming one value per row with the target label; `none` models the
pandas `ValueError` when the value count does not match the row count. -/
def assignPos (upd : Row → String → Row) (lab : DirType) (vals : List String) :
    List Row → Option (List Row)
  | [] => if vals.isEmpty then some [] else none
  | r :: rs =>
    if r.label = lab then
      match vals with
      | [] => none
      | v :: vs => (assignPos upd lab vs rs).map (fun rs' => upd r v :: rs')
    else
      (assignPos upd lab vals rs).map (fun rs' => r :: rs')

/-- Setter for the `depth_path` column. -/
def updDepth (r : Row) (v : String) : Row := { r with depth_path := some v }

/-- Setter for the `mask_path` column. -/
def updMask (r : Row) (v : String) : Row := { r with mask_path := some v }

/-- The characters after the last `/` of a path. -/
def lastComponent (cs : List Char) : List Char :=
  cs.foldl (fun acc c => if c = '/' then [] else acc ++ [c]) []

/-- `Path(p).stem` for the final path component `name`: `name` without its
suffix, where the suffix starts at the last dot `i` with
`0 < i < len(name) - 1`. -/
def stemOf (p : String) : String :=
  let name := lastComponent p.toList
  let dots := (List.range name.length).filter (fun i => name.getD i ' ' = '.')
  match dots.getLast? with
  | some i =>
    if 0 < i ∧ i + 1 < name.length then String.mk (name.take i)
    else String.mk name
  | none => String.mk name

/-- `a` occurs as a contiguous segment of `b`. -/
def hasSubseg (a : List Char) : List Char → Bool
  | [] => a.isEmpty
  | c :: cs => a.isPrefixOf (c :: cs) || hasSubseg a cs

/-- Python's `a in b` substring test. -/
def isSubstrOf (a b : String) : Bool :=
  hasSubseg a.toList b.toList

/-- The per-row check of the abnormal-depth naming assert:
`Path(image_path).stem in Path(depth_path).stem` for rows with abnormal
label index (a NA `depth_path` cannot pass; on such rows the Python
`apply` itself errors out). -/
def abnormalStemOk (r : Row) : Bool :=
  if r.label_index = some 1 then
    match r.depth_path with
    | some d => isSubstrOf (stemOf r.image_path) (stemOf d)
    | none => false
  else true

/-- The per-row check of `assert samples.depth_path.apply(... exists ...)`:
every non-NA depth path must exist. -/
def depthExistsOk (fs : FileSys) (r : Row) : Bool :=
  match r.depth_path with
  | some p => fs.fileExists p
  | none => true

/-- The per-row check of the mask-files assert: every non-empty mask path
must exist. -/
def maskExistsOk (fs : FileSys) (r : Row) : Bool :=
  match r.mask_path with
  | some p => if p = "" then true else fs.fileExists p
  | none => true

/-- The depth block (`if normal_depth_dir:`): positional assignment of
`depth_path` for normal, abnormal, and (when `normal_test_dir` was given)
normal_test rows, then the naming assert and the existence assert.  The
trailing `astype({"depth_path": "str"})` only reformats NA cells and is
not modelled. -/
def depthStage (fs : FileSys) (inp : Folder3DInput) (rows : List Row) :
    Except MkErr (List Row) :=
  match inp.normal_depth_files with
  | none => Except.ok rows
  | some _ =>
    match assignPos updDepth DirType.normal (pathsOf DirType.normal_depth rows) rows with
    | none => Except.error MkErr.valueError
    | some rows1 =>
      match assignPos updDepth DirType.abnormal (pathsOf DirType.abnormal_depth rows1) rows1 with
      | none => Except.error MkErr.valueError
      | some rows2 =>
        let rows3e : Except MkErr (List Row) :=
          match inp.normal_test_files with
          | some _ =>
            match assignPos updDepth DirType.normal_test
                (pathsOf DirType.normal_test_depth rows2) rows2 with
            | none => Except.error MkErr.valueError
            | some rows3 => Except.ok rows3
          | none => Except.ok rows2
        match rows3e with
        | Except.error e => Except.error e
        | Except.ok rows3 =>
          if rows3.all abnormalStemOk then
            if rows3.all (depthExistsOk fs) then Except.ok rows3
            else Except.error MkErr.assertionError
          else Except.error MkErr.assertionError

/-- `fillna("")` on the `mask_path` column. -/
def fillMask (r : Row) : Row :=
  { r with mask_path := some (r.mask_path.getD "") }

/-- The mask block (`if mask_dir and abnormal_dir:`): positional
assignment of `mask_path` to abnormal rows from the mask rows,
`fillna("")`, and the existence assert; otherwise `mask_path` is set to
`""` on every row. -/
def maskStage (fs : FileSys) (inp : Folder3DInput) (rows : List Row) :
    Except MkErr (List Row) :=
  if inp.mask_files.isSome && inp.abnormal_files.isSome then
    match assignPos updMask DirType.abnormal (pathsOf DirType.mask rows) rows with
    | none => Except.error MkErr.valueError
    | some rowsM0 =>
      let rowsM := rowsM0.map fillMask
      if rowsM.all (maskExistsOk fs) then Except.ok rowsM
      else Except.error MkErr.assertionError
  else Except.ok (rows.map (fun r => { r with mask_path := some "" }))

/-- Keep only normal/abnormal/normal_test rows (drop the temporary depth
and mask rows). -/
def keepLabel (r : Row) : Bool :=
  match r.label with
  | DirType.normal => true
  | DirType.abnormal => true
  | DirType.normal_test => true
  | _ => false

/-- The `split` column value derived from the file layout. -/
def splitOf : DirType → Option Split
  | DirType.normal => some Split.train
  | DirType.abnormal => some Split.test
  | DirType.normal_test => some Split.test
  | _ => none

/-- Write the `split` column of a row. -/
def assignSplit (r : Row) : Row :=
  { r with split := splitOf r.label }

/-- Drop depth/mask rows and assign the train/test split. -/
def finalizeRows (rows : List Row) : List Row :=
  (rows.filter keepLabel).map assignSplit

/-- `make_folder3d_dataset` up to (and including) the split-column
assignment: the `normal_dir` assert, assembling and sorting the sample
table, the label-index column, and the depth, mask, filter and split
steps, in source order. -/
def make_samples (fs : FileSys) (inp : Folder3DInput) :
    Except MkErr (List Row) :=
  if fs.is_dir inp.normal_dir then
    match depthStage fs inp ((sortRows (dirFiles inp)).map initRow) with
    | Except.error e => Except.error e
    | Except.ok rowsD =>
      match maskStage fs inp rowsD with
      | Except.error e => Except.error e
      | Except.ok rowsM => Except.ok (finalizeRows rowsM)
  else Except.error MkErr.assertionError

/-- `make_folder3d_dataset`: the full pipeline, followed by the
`if split:` row filter (a list is index-free, so `reset_index` is the
identity here). -/
def make_folder3d_dataset (fs : FileSys) (inp : Folder3DInput)
    (split? : Option Split) : Except MkErr (List Row) :=
  match make_samples fs inp with
  | Except.error e => Except.error e
  | Except.ok rows =>
    match split? with
    | some s => Except.ok (rows.filter (fun r => r.split = some s))
    | none => Except.ok rows

/-- A row property preserved by the column setter survives a positional
assignment. -/
theorem assignPos_pres (upd : Row → String → Row) (lab : DirType)
    (P : Row → Prop) (hupd : ∀ r v, P r → P (upd r v)) :
    ∀ (vals : List String) (rows rows' : List Row),
      assignPos upd lab vals rows = some rows' →
      (∀ r ∈ rows, P r) → ∀ r' ∈ rows', P r' := by
  intro vals rows
  induction rows generalizing vals with
  | nil =>
    intro rows' h hall r' hr'
    by_cases hv : vals.isEmpty = true <;> simp [assignPos, hv] at h
    subst h
    simp at hr'
  | cons r rs ih =>
    intro rows' h hall r' hr'
    unfold assignPos at h
    by_cases hl : r.label = lab
    · rw [if_pos hl] at h
      cases vals with
      | nil => cases h
      | cons v vs =>
        obtain ⟨rs', hrs', rfl⟩ := Option.map_eq_some'.mp h
        rcases List.mem_cons.mp hr' with rfl | hmem
        · exact hupd r v (hall r (List.mem_cons_self r rs))
        · exact ih vs rs' hrs' (fun x hx => hall x (List.mem_cons_of_mem r hx)) r' hmem
    · rw [if_neg hl] at h
      obtain ⟨rs', hrs', rfl⟩ := Option.map_eq_some'.mp h
      rcases List.mem_cons.mp hr' with rfl | hmem
      · exact hall r' (List.mem_cons_self r' rs)
      · exact ih vals rs' hrs' (fun x hx => hall x (List.mem_cons_of_mem r hx)) r' hmem

/-- Every row of `finalizeRows` is a kept row with its split assigned. -/
theorem mem_finalizeRows {rows : List Row} {r' : Row}
    (h : r' ∈ finalizeRows rows) :
    ∃ r ∈ rows, keepLabel r = true ∧ r' = assignSplit r := by
  simp only [finalizeRows, List.mem_map, List.mem_filter] at h
  obtain ⟨r, ⟨hr, hk⟩, rfl⟩ := h
  exact ⟨r, hr, hk, rfl⟩

/-- On success the depth stage yields the depth-assigned rows, and every
returned row passes the depth-existence assert when the depth block
actually ran. -/
theorem depthStage_ok (fs : FileSys) (inp : Folder3DInput)
    (P : Row → Prop) (hupd : ∀ r v, P r → P (updDepth r v)) :
    ∀ rows rows', depthStage fs inp rows = Except.ok rows' →
      (∀ r ∈ rows, P r) →
      (∀ r' ∈ rows', P r') ∧
      (inp.normal_depth_files.isSome = true →
        ∀ r' ∈ rows', depthExistsOk fs r' = true) := by
  intro rows rows' h hall
  unfold depthStage at h
  cases hnd : inp.normal_depth_files with
  | none =>
    simp only [hnd, Except.ok.injEq] at h
    subst h
    exact ⟨hall, fun hc => absurd hc (by simp)⟩
  | some l =>
    simp only [hnd] at h
    cases h1 : assignPos updDepth DirType.normal (pathsOf DirType.normal_depth rows) rows with
    | none => simp [h1] at h
    | some rows1 =>
      simp only [h1] at h
      cases h2 : assignPos updDepth DirType.abnormal (pathsOf DirType.abnormal_depth rows1) rows1 with
      | none => simp [h2] at h
      | some rows2 =>
        simp only [h2] at h
        have hall1 : ∀ r ∈ rows1, P r := assignPos_pres updDepth _ P hupd _ _ _ h1 hall
        have hall2 : ∀ r ∈ rows2, P r := assignPos_pres updDepth _ P hupd _ _ _ h2 hall1
        have main : ∀ (rows3 : List Row), (∀ r ∈ rows3, P r) →
            (if rows3.all abnormalStemOk then
              if rows3.all (depthExistsOk fs) then Except.ok rows3
              else Except.error MkErr.assertionError
            else Except.error MkErr.assertionError) = Except.ok rows' →
            (∀ r' ∈ rows', P r') ∧
            (∀ r' ∈ rows', depthExistsOk fs r' = true) := by
          intro rows3 hall3 h3
          by_cases hstem : rows3.all abnormalStemOk = true
          · simp only [hstem, if_true] at h3
            by_cases hex : rows3.all (depthExistsOk fs) = true
            · simp only [hex, if_true, Except.ok.injEq] at h3
              subst h3
              exact ⟨hall3, List.all_eq_true.mp hex⟩
            · simp [hex] at h3
          · simp [hstem] at h3
        cases hnt : inp.normal_test_files with
        | none =>
          simp only [hnt] at h
          have := main rows2 hall2 h
          exact ⟨this.1, fun _ => this.2⟩
        | some _ =>
          simp only [hnt] at h
          cases h4 : assignPos updDepth DirType.normal_test
              (pathsOf DirType.normal_test_depth rows2) rows2 with
          | none => simp [h4] at h
          | some rows4 =>
            simp only [h4] at h
            have hall4 : ∀ r ∈ rows4, P r :=
              assignPos_pres updDepth _ P hupd _ _ _ h4 hall2
            have := main rows4 hall4 h
            exact ⟨this.1, fun _ => this.2⟩

/-- On success the mask stage preserves any property stable under
`mask_path` updates, and every returned row passes the mask-existence
assert when the mask block actually ran. -/
theorem maskStage_ok (fs : FileSys) (inp : Folder3DInput)
    (P : Row → Prop)
    (hupd : ∀ (r : Row) (m : Option String), P r → P { r with mask_path := m }) :
    ∀ rows rows', maskStage fs inp rows = Except.ok rows' →
      (∀ r ∈ rows, P r) →
      (∀ r' ∈ rows', P r') ∧
      ((inp.mask_files.isSome && inp.abnormal_files.isSome) = true →
        ∀ r' ∈ rows', maskExistsOk fs r' = true) := by
  intro rows rows' h hall
  unfold maskStage at h
  by_cases hc : (inp.mask_files.isSome && inp.abnormal_files.isSome) = true
  · simp only [hc, if_true] at h
    cases h1 : assignPos updMask DirType.abnormal (pathsOf DirType.mask rows) rows with
    | none => simp [h1] at h
    | some rows0 =>
      simp only [h1] at h
      have hall0 : ∀ r ∈ rows0, P r :=
        assignPos_pres updMask _ P (fun r v hp => hupd r (some v) hp) _ _ _ h1 hall
      by_cases hex : (rows0.map fillMask).all (maskExistsOk fs) = true
      · simp only [hex, if_true, Except.ok.injEq] at h
        subst h
        constructor
        · intro r' hr'
          obtain ⟨r0, hr0, rfl⟩ := List.mem_map.mp hr'
          exact hupd r0 _ (hall0 r0 hr0)
        · exact fun _ => List.all_eq_true.mp hex
      · simp [hex] at h
  · simp only [Bool.not_eq_true] at hc
    simp only [hc, Bool.false_eq_true, if_false, Except.ok.injEq] at h
    subst h
    constructor
    · intro r' hr'
      obtain ⟨r0, hr0, rfl⟩ := List.mem_map.mp hr'
      exact hupd r0 (some "") (hall r0 hr0)
    · intro hcc
      rw [hcc] at hc
      cases hc

/-- A successful `make_samples` run decomposes into its stages. -/
theorem make_samples_decomp (fs : FileSys) (inp : Folder3DInput)
    (rows : List Row) (h : make_samples fs inp = Except.ok rows) :
    fs.is_dir inp.normal_dir = true ∧
    ∃ rowsD rowsM,
      depthStage fs inp ((sortRows (dirFiles inp)).map initRow) = Except.ok rowsD ∧
      maskStage fs inp rowsD = Except.ok rowsM ∧
      rows = finalizeRows rowsM := by
  unfold make_samples at h
  by_cases hd : fs.is_dir inp.normal_dir = true
  · simp only [hd, if_true] at h
    cases h1 : depthStage fs inp ((sortRows (dirFiles inp)).map initRow) with
    | error e => simp [h1] at h
    | ok rowsD =>
      simp only [h1] at h
      cases h2 : maskStage fs inp rowsD with
      | error e => simp [h2] at h
      | ok rowsM =>
        simp only [h2, Except.ok.injEq] at h
        exact ⟨hd, rowsD, rowsM, rfl, h2, h.symm⟩
  · simp [hd] at h

/-- A successful full run restricts to some successful `make_samples`
run. -/
theorem make_fd_sub (fs : FileSys) (inp : Folder3DInput)
    (split? : Option Split) (rows : List Row)
    (h : make_folder3d_dataset fs inp split? = Except.ok rows) :
    ∃ rows0, make_samples fs inp = Except.ok rows0 ∧ ∀ r ∈ rows, r ∈ rows0 := by
  unfold make_folder3d_dataset at h
  cases hs : make_samples fs inp with
  | error e => simp [hs] at h
  | ok rows0 =>
    simp only [hs] at h
    refine ⟨rows0, rfl, ?_⟩
    cases split? with
    | none =>
      simp only [Except.ok.injEq] at h
      subst h
      exact fun r hr => hr
    | some s =>
      simp only [Except.ok.injEq] at h
      subst h
      exact fun r hr => (List.mem_filter.mp hr).1

/-- Rows surviving the label filter carry one of the three kept labels. -/
theorem keepLabel_cases {r : Row} (h : keepLabel r = true) :
    r.label = DirType.normal ∨ r.label = DirType.abnormal ∨
      r.label = DirType.normal_test := by
  unfold keepLabel at h
  cases hl : r.label <;> rw [hl] at h <;> simp at h <;> simp [hl]

/-- Invariant of a successful `make_samples` run: every returned row has a
kept label, the label index derived from its label, and the split derived
from its label. -/
theorem make_samples_inv (fs : FileSys) (inp : Folder3DInput)
    (rows : List Row) (h : make_samples fs inp = Except.ok rows) :
    ∀ r ∈ rows, keepLabel r = true ∧
      r.label_index = labelIndexOf r.label ∧ r.split = splitOf r.label := by
  obtain ⟨hd, rowsD, rowsM, h1, h2, rfl⟩ := make_samples_decomp fs inp rows h
  have hbase : ∀ r ∈ (sortRows (dirFiles inp)).map initRow,
      r.label_index = labelIndexOf r.label := by
    intro r hr
    obtain ⟨p, hp, rfl⟩ := List.mem_map.mp hr
    rfl
  have hD := depthStage_ok fs inp
    (fun r => r.label_index = labelIndexOf r.label)
    (fun r v hp => hp) _ _ h1 hbase
  have hM := maskStage_ok fs inp
    (fun r => r.label_index = labelIndexOf r.label)
    (fun r m hp => hp) _ _ h2 hD.1
  intro r hr
  obtain ⟨r0, hr0, hk, rfl⟩ := mem_finalizeRows hr
  exact ⟨hk, hM.1 r0 hr0, rfl⟩

/-- C5: every row returned by `make_folder3d_dataset` is labelled normal,
abnormal, or normal_test (depth and mask rows are filtered out), with
`label_index` 0 (`LabelName.NORMAL`) for normal/normal_test rows and 1
(`LabelName.ABNORMAL`) for abnormal rows. -/
theorem folder3d_labels (fs : FileSys) (inp : Folder3DInput)
    (split? : Option Split) (rows : List Row)
    (h : make_folder3d_dataset fs inp split? = Except.ok rows) :
    ∀ r ∈ rows,
      (r.label = DirType.normal ∨ r.label = DirType.abnormal ∨
        r.label = DirType.normal_test) ∧
      ((r.label = DirType.normal ∨ r.label = DirType.normal_test) →
        r.label_index = some 0) ∧
      (r.label = DirType.abnormal → r.label_index = some 1) := by
  obtain ⟨rows0, hs, hsub⟩ := make_fd_sub fs inp split? rows h
  intro r hr
  have hinv := make_samples_inv fs inp rows0 hs r (hsub r hr)
  refine ⟨keepLabel_cases hinv.1, ?_, ?_⟩
  · rintro (hl | hl) <;> rw [hinv.2.1, hl] <;> rfl
  · intro hl
    rw [hinv.2.1, hl]
    rfl

/-- Witness for C5 on a concrete folder layout with normal, abnormal and
depth directories. -/
theorem folder3d_labels_witness :
    make_folder3d_dataset ⟨fun _ => true, fun _ => true⟩
        ⟨"nd", ["norm/001.png"], some ["abn/001.png"], none, none,
          some ["ndep/001.tiff"], some ["adep/001.tiff"], none⟩ none =
      Except.ok
        [⟨"abn/001.png", DirType.abnormal, some 1, some "adep/001.tiff",
            some "", some Split.test⟩,
          ⟨"norm/001.png", DirType.normal, some 0, some "ndep/001.tiff",
            some "", some Split.train⟩] ∧
    ∀ r ∈ [⟨"abn/001.png", DirType.abnormal, some 1, some "adep/001.tiff",
            some "", some Split.test⟩,
          (⟨"norm/001.png", DirType.normal, some 0, some "ndep/001.tiff",
            some "", some Split.train⟩ : Row)],
      (r.label = DirType.normal ∨ r.label = DirType.abnormal ∨
        r.label = DirType.normal_test) ∧
      ((r.label = DirType.normal ∨ r.label = DirType.normal_test) →
        r.label_index = some 0) ∧
      (r.label = DirType.abnormal → r.label_index = some 1) :=
  ⟨by decide, folder3d_labels ⟨fun _ => true, fun _ => true⟩
    ⟨"nd", ["norm/001.png"], some ["abn/001.png"], none, none,
      some ["ndep/001.tiff"], some ["adep/001.tiff"], none⟩ none _ (by decide)⟩

/-- C6: `make_folder3d_dataset` assigns the split from the file layout —
normal rows get `Split.train`, abnormal and normal_test rows get
`Split.test` — and a non-`None` `split` argument returns exactly the rows
whose split equals it (renumbered from 0, a list being index-free). -/
theorem folder3d_split_rule (fs : FileSys) (inp : Folder3DInput) :
    (∀ rows, make_folder3d_dataset fs inp none = Except.ok rows →
      ∀ r ∈ rows,
        (r.label = DirType.normal → r.split = some Split.train) ∧
        ((r.label = DirType.abnormal ∨ r.label = DirType.normal_test) →
          r.split = some Split.test)) ∧
    (∀ s rows, make_folder3d_dataset fs inp none = Except.ok rows →
      make_folder3d_dataset fs inp (some s) =
        Except.ok (rows.filter (fun r => r.split = some s))) := by
  have key : ∀ rows, make_folder3d_dataset fs inp none = Except.ok rows →
      make_samples fs inp = Except.ok rows := by
    intro rows h
    unfold make_folder3d_dataset at h
    cases hs : make_samples fs inp with
    | error e => simp [hs] at h
    | ok rows0 =>
      simp only [hs, Except.ok.injEq] at h
      rw [h]
  constructor
  · intro rows h r hr
    have hinv := make_samples_inv fs inp rows (key rows h) r hr
    constructor
    · intro hl
      rw [hinv.2.2, hl]
      rfl
    · rintro (hl | hl) <;> rw [hinv.2.2, hl] <;> rfl
  · intro s rows h
    unfold make_folder3d_dataset
    simp [key rows h]

/-- Witness for C6: the test-split request returns exactly the test rows
of the full table. -/
theorem folder3d_split_rule_witness :
    make_folder3d_dataset ⟨fun _ => true, fun _ => true⟩
        ⟨"nd", ["norm/001.png"], some ["abn/001.png"], none, none,
          some ["ndep/001.tiff"], some ["adep/001.tiff"], none⟩
        (some Split.test) =
      Except.ok
        ([⟨"abn/001.png", DirType.abnormal, some 1, some "adep/001.tiff",
            some "", some Split.test⟩,
          ⟨"norm/001.png", DirType.normal, some 0, some "ndep/001.tiff",
            some "", some Split.train⟩].filter
          (fun r => r.split = some Split.test)) :=
  (folder3d_split_rule ⟨fun _ => true, fun _ => true⟩
    ⟨"nd", ["norm/001.png"], some ["abn/001.png"], none, none,
      some ["ndep/001.tiff"], some ["adep/001.tiff"], none⟩).2
    Split.test _ (by decide)

/-- C7: `make_folder3d_dataset` enforces its preconditions by
assertion-style checks: it fails with an assertion error whenever the
resolved `normal_dir` is not an existing directory; on success with a
`normal_depth_dir` provided every assigned `depth_path` exists, and on
success with both `mask_dir` and `abnormal_dir` provided every non-empty
`mask_path` exists. -/
theorem folder3d_assert_checks (fs : FileSys) (inp : Folder3DInput) :
    (fs.is_dir inp.normal_dir = false →
      ∀ split?, make_folder3d_dataset fs inp split? =
        Except.error MkErr.assertionError) ∧
    (∀ split? rows, inp.normal_depth_files.isSome = true →
      make_folder3d_dataset fs inp split? = Except.ok rows →
      ∀ r ∈ rows, ∀ p, r.depth_path = some p → fs.fileExists p = true) ∧
    (∀ split? rows, inp.mask_files.isSome = true →
      inp.abnormal_files.isSome = true →
      make_folder3d_dataset fs inp split? = Except.ok rows →
      ∀ r ∈ rows, ∀ p, r.mask_path = some p → p ≠ "" →
        fs.fileExists p = true) := by
  refine ⟨?_, ?_, ?_⟩
  · intro hdir split?
    unfold make_folder3d_dataset make_samples
    simp [hdir]
  · intro split? rows hnd h r hr p hdp
    obtain ⟨rows0, hs, hsub⟩ := make_fd_sub fs inp split? rows h
    obtain ⟨hd, rowsD, rowsM, h1, h2, rfl⟩ := make_samples_decomp fs inp rows0 hs
    have hD := (depthStage_ok fs inp (fun _ => True)
      (fun _ _ _ => trivial) _ _ h1 (fun _ _ => trivial)).2 hnd
    have hM := (maskStage_ok fs inp (fun r => depthExistsOk fs r = true)
      (fun r m hp => hp) _ _ h2 hD).1
    obtain ⟨r0, hr0, hk, rfl⟩ := mem_finalizeRows (hsub r hr)
    have hok : depthExistsOk fs r0 = true := hM r0 hr0
    simpa [depthExistsOk, show r0.depth_path = some p from hdp] using hok
  · intro split? rows hm ha h r hr p hmp hne
    obtain ⟨rows0, hs, hsub⟩ := make_fd_sub fs inp split? rows h
    obtain ⟨hd, rowsD, rowsM, h1, h2, rfl⟩ := make_samples_decomp fs inp rows0 hs
    have hcond : (inp.mask_files.isSome && inp.abnormal_files.isSome) = true := by
      rw [hm, ha]
      rfl
    have hMall := (maskStage_ok fs inp (fun _ => True)
      (fun _ _ _ => trivial) _ _ h2 (fun _ _ => trivial)).2 hcond
    obtain ⟨r0, hr0, hk, rfl⟩ := mem_finalizeRows (hsub r hr)
    have hok : maskExistsOk fs r0 = true := hMall r0 hr0
    have : r0.mask_path = some p := hmp
    rw [maskExistsOk, this] at hok
    simpa [hne] using hok

/-- Witness for C7: with a mask and abnormal directory provided and an
all-true filesystem, the run succeeds and the depth/mask obligations hold
at its rows; the missing-directory branch errors. -/
theorem folder3d_assert_checks_witness :
    make_folder3d_dataset ⟨fun _ => false, fun _ => true⟩
        ⟨"nd", ["norm/001.png"], some ["abn/001.png"], none, none,
          some ["ndep/001.tiff"], some ["adep/001.tiff"], none⟩ none =
      Except.error MkErr.assertionError :=
  (folder3d_assert_checks ⟨fun _ => false, fun _ => true⟩
    ⟨"nd", ["norm/001.png"], some ["abn/001.png"], none, none,
      some ["ndep/001.tiff"], some ["adep/001.tiff"], none⟩).1 rfl none

/-! ### `collate_fn` (datamodule.py)

Batch items carry values of an abstract type `α`; `default_collate` is an
abstract function `dc : List α → α` on the per-key value lists.  The
result records both the returned dictionary and the batch after the
in-place `item.pop("boxes")` side effects; `none` models an exception
(`IndexError` on an empty batch, `KeyError`/type errors on malformed
batches). -/

/-- A batch element: a sample dict or a bare (non-dict) value. -/
inductive BElem (α : Type) where
  | dict (d : List (String × α))
  | raw (a : α)
  deriving DecidableEq

/-- A value of the collated output dict: the boxes kept as a plain list,
or a `default_collate`d entry. -/
inductive CollVal (α : Type) where
  | boxes (l : List α)
  | coll (a : α)
  deriving DecidableEq

/-- The result of `collate_fn`: a collated dict, or `default_collate` of a
non-dict batch. -/
inductive COut (α : Type) where
  | dictOut (entries : List (String × CollVal α))
  | rawOut (a : α)
  deriving DecidableEq

/-- `key in d` / `d[key]` on a Python dict. -/
def lookupKey {α : Type} (k : String) : List (String × α) → Option α
  | [] => none
  | (k', v) :: rest => if k' = k then some v else lookupKey k rest

/-- `d.pop(key)`: the popped value and the remaining dict; `none` is a
`KeyError`. -/
def popKey {α : Type} (k : String) : List (String × α) → Option (α × List (String × α))
  | [] => none
  | (k', v) :: rest =>
    if k' = k then some (v, rest)
    else (popKey k rest).map (fun p => (p.1, (k', v) :: p.2))

/-- Remove a key from a dict (the dict left behind by `pop`). -/
def eraseKey {α : Type} (k : String) : List (String × α) → List (String × α)
  | [] => []
  | (k', v) :: rest => if k' = k then rest else (k', v) :: eraseKey k rest

/-- `[item.pop("boxes") for item in batch]` with its side effect: the
popped values and the mutated batch; fails when an item is not a dict
with that key. -/
def popAll {α : Type} (k : String) : List (BElem α) → Option (List α × List (BElem α))
  | [] => some ([], [])
  | BElem.raw _ :: _ => none
  | BElem.dict d :: rest =>
    match popKey k d, popAll k rest with
    | some (v, d'), some (vs, rest') => some (v :: vs, BElem.dict d' :: rest')
    | _, _ => none

/-- `[item[key] for item in batch]`; fails when an item is not a dict with
that key. -/
def getVals {α : Type} (k : String) : List (BElem α) → Option (List α)
  | [] => some []
  | BElem.raw _ :: _ => none
  | BElem.dict d :: rest =>
    match lookupKey k d, getVals k rest with
    | some v, some vs => some (v :: vs)
    | _, _ => none

/-- `{key: default_collate([item[key] for item in batch]) for key in keys}`
in key order. -/
def collectKeys {α : Type} (dc : List α → α) :
    List String → List (BElem α) → Option (List (String × CollVal α))
  | [], _ => some []
  | k :: ks, batch =>
    match getVals k batch, collectKeys dc ks batch with
    | some vs, some es => some ((k, CollVal.coll (dc vs)) :: es)
    | _, _ => none

/-- The values of an all-non-dict batch (`default_collate(batch)` input);
fails on a batch mixing dicts in. -/
def rawVals {α : Type} : List (BElem α) → Option (List α)
  | [] => some []
  | BElem.raw a :: rest => (rawVals rest).map (fun vs => a :: vs)
  | BElem.dict _ :: _ => none

/-- `collate_fn`, following the source: sample `batch[0]`; for a dict
element pop the boxes into a list when present and `default_collate` the
remaining keys of the first element across the batch; otherwise
`default_collate` the whole batch. -/
def collate_fn {α : Type} (dc : List α → α) (batch : List (BElem α)) :
    Option (COut α × List (BElem α)) :=
  match batch with
  | [] => none
  | elem :: _ =>
    match elem with
    | BElem.dict d =>
      if (lookupKey "boxes" d).isSome then
        match popAll "boxes" batch with
        | none => none
        | some (boxVals, batch') =>
          match batch' with
          | BElem.dict d' :: _ =>
            match collectKeys dc (d'.map Prod.fst) batch' with
            | none => none
            | some entries =>
              some (COut.dictOut (("boxes", CollVal.boxes boxVals) :: entries), batch')
          | _ => none
      else
        match collectKeys dc (d.map Prod.fst) batch with
        | none => none
        | some entries => some (COut.dictOut entries, batch)
    | BElem.raw _ =>
      match rawVals batch with
      | none => none
      | some vals => some (COut.rawOut (dc vals), batch)

/-- `pop` on a dict that contains the key returns its value and erases
the key. -/
theorem popKey_eq {α : Type} (d0 : α) (k : String) (d : List (String × α))
    (h : (lookupKey k d).isSome = true) :
    popKey k d = some ((lookupKey k d).getD d0, eraseKey k d) := by
  induction d with
  | nil => simp [lookupKey] at h
  | cons p rest ih =>
    obtain ⟨k', v⟩ := p
    by_cases hk : k' = k
    · simp [popKey, lookupKey, eraseKey, hk]
    · have h' : (lookupKey k rest).isSome = true := by
        simpa [lookupKey, hk] using h
      simp [popKey, lookupKey, eraseKey, hk, ih h']

/-- Popping the boxes across an all-dict batch that has them everywhere
yields their list and the erased dicts. -/
theorem popAll_eq {α : Type} (d0 : α) (k : String)
    (items : List (List (String × α)))
    (h : ∀ d ∈ items, (lookupKey k d).isSome = true) :
    popAll k (items.map BElem.dict) =
      some (items.map (fun d => (lookupKey k d).getD d0),
        items.map (fun d => BElem.dict (eraseKey k d))) := by
  induction items with
  | nil => simp [popAll]
  | cons d rest ih =>
    have hd := h d (List.mem_cons_self d rest)
    have hrest := fun x hx => h x (List.mem_cons_of_mem d hx)
    simp [popAll, popKey_eq d0 k d hd, ih hrest]

/-- Reading one key across an all-dict batch that has it everywhere. -/
theorem getVals_eq {α : Type} (d0 : α) (k : String)
    (items : List (List (String × α)))
    (h : ∀ d ∈ items, (lookupKey k d).isSome = true) :
    getVals k (items.map BElem.dict) =
      some (items.map (fun d => (lookupKey k d).getD d0)) := by
  induction items with
  | nil => simp [getVals]
  | cons d rest ih =>
    have hd := h d (List.mem_cons_self d rest)
    have hrest := fun x hx => h x (List.mem_cons_of_mem d hx)
    obtain ⟨v, hv⟩ := Option.isSome_iff_exists.mp hd
    simp [getVals, hv, ih hrest]

/-- Collating a key list across an all-dict batch that has every key. -/
theorem collectKeys_eq {α : Type} (d0 : α) (dc : List α → α)
    (ks : List String) (items : List (List (String × α)))
    (h : ∀ k ∈ ks, ∀ d ∈ items, (lookupKey k d).isSome = true) :
    collectKeys dc ks (items.map BElem.dict) =
      some (ks.map (fun k =>
        (k, CollVal.coll (dc (items.map (fun d => (lookupKey k d).getD d0)))))) := by
  induction ks with
  | nil => simp [collectKeys]
  | cons k rest ih =>
    have hk := h k (List.mem_cons_self k rest)
    have hrest := fun x hx => h x (List.mem_cons_of_mem k hx)
    simp [collectKeys, getVals_eq d0 k items hk, ih hrest]

/-- The values of an all-raw batch. -/
theorem rawVals_eq {α : Type} (vs : List α) :
    rawVals (vs.map BElem.raw) = some vs := by
  induction vs with
  | nil => simp [rawVals]
  | cons v rest ih => simp [rawVals, ih]

/-- C8: for a non-empty all-dict batch whose items contain `boxes` (and
whose other first-element keys occur in every item), `collate_fn` returns
the boxes collated as the plain list of each item's boxes value in batch
order, every other key of the first element mapped to `default_collate`
of its values across the batch, and pops `boxes` out of every input dict;
for a batch of non-dict elements it returns `default_collate(batch)` and
leaves the batch unchanged. -/
theorem collate_fn_spec {α : Type} (dc : List α → α) (d0 : α) :
    (∀ (d1 : List (String × α)) (rest : List (List (String × α))),
      (∀ d ∈ d1 :: rest, (lookupKey "boxes" d).isSome = true) →
      (∀ k ∈ (eraseKey "boxes" d1).map Prod.fst,
        ∀ d ∈ d1 :: rest, (lookupKey k (eraseKey "boxes" d)).isSome = true) →
      collate_fn dc ((d1 :: rest).map BElem.dict) =
        some (COut.dictOut
          (("boxes", CollVal.boxes
              ((d1 :: rest).map (fun d => (lookupKey "boxes" d).getD d0)))
            :: ((eraseKey "boxes" d1).map Prod.fst).map (fun k =>
              (k, CollVal.coll (dc ((d1 :: rest).map
                (fun d => (lookupKey k (eraseKey "boxes" d)).getD d0)))))),
          (d1 :: rest).map (fun d => BElem.dict (eraseKey "boxes" d)))) ∧
    (∀ (v : α) (vs : List α),
      collate_fn dc ((v :: vs).map BElem.raw) =
        some (COut.rawOut (dc (v :: vs)), (v :: vs).map BElem.raw)) := by
  constructor
  · intro d1 rest hb hk
    have hb1 := hb d1 (List.mem_cons_self d1 rest)
    have hpop := popAll_eq d0 "boxes" (d1 :: rest) hb
    have hcoll := collectKeys_eq d0 dc ((eraseKey "boxes" d1).map Prod.fst)
      ((d1 :: rest).map (eraseKey "boxes"))
      (by
        intro k hkmem d hd
        obtain ⟨d', hd', rfl⟩ := List.mem_map.mp hd
        exact hk k hkmem d' hd')
    simp only [List.map_map] at hcoll
    simp only [List.map_cons, List.map_map, Function.comp_def] at hpop hcoll ⊢
    simp [collate_fn, hb1, hpop, hcoll, Function.comp_def]
  · intro v vs
    have hr := rawVals_eq (v :: vs)
    simp only [List.map_cons] at hr
    simp [collate_fn, hr]

/-- Witness for C8 at a concrete two-item batch over natural numbers with
summation as `default_collate`. -/
theorem collate_fn_spec_witness :
    collate_fn (fun l => l.foldl (fun a b => a + b) 0)
        [BElem.dict [("boxes", 7), ("image", 1)],
         BElem.dict [("image", 2), ("boxes", 8)]] =
      some (COut.dictOut
        [("boxes", CollVal.boxes [7, 8]), ("image", CollVal.coll 3)],
        [BElem.dict [("image", 1)], BElem.dict [("image", 2)]]) ∧
    collate_fn (fun l => l.foldl (fun a b => a + b) 0)
        [BElem.raw 4, BElem.raw 5] =
      some (COut.rawOut 9, [BElem.raw 4, BElem.raw 5]) := by
  constructor
  · have h := (collate_fn_spec (fun l => l.foldl (fun a b => a + b) 0) 0).1
      [("boxes", 7), ("image", 1)] [[("image", 2), ("boxes", 8)]]
      (by decide) (by decide)
    exact h.trans (by decide)
  · have h := (collate_fn_spec (fun l => l.foldl (fun a b => a + b) 0) 0).2 4 [5]
    exact h.trans (by decide)

end Anomalib
